import Mathlib

/-!
Verification of `src/client/qiskit_serverless/core/clients/LocalClient.py`,
the local in-process emulator (`LocalClient`) of the qiskit-serverless
execution client.  Python strings are modelled as `List Char` (or `String`
at the interface), Python dicts as association lists with the appropriate
lookup discipline, exceptions as `Except`, and the operating-system
effects of `run` (pip installs, the spawned subprocess, the fresh UUID,
`os.environ["PATH"]`, JSON serialization of the arguments) as explicit
oracle inputs.
-/

set_option autoImplicit false

/-- Boolean test that `p` is a leading segment of `s` (used to embed the
anchoring of literal pieces of the regular expression). -/
def hasPfx : List Char → List Char → Bool
  | [], _ => true
  | _ :: _, [] => false
  | a :: p, b :: s => a = b && hasPfx p s

/-- The literal text the regex requires before the payload:
`"\nSaved Result:"`. -/
def startMarker : List Char := "\nSaved Result:".data

/-- The literal text the regex requires after the payload:
`":End Saved Result\n"`. -/
def endMarker : List Char := ":End Saved Result\n".data

/-- The lazy group `(.+?)` followed by the literal `":End Saved Result\n"`,
as Python's backtracking engine runs it at a fixed start position: consume
one character (`.` fails on a newline), then—lazily—check whether the
closing literal matches here; if not, consume one more character, and so
on.  Returns the captured group on success. -/
def scanPayload : List Char → Option (List Char)
  | [] => none
  | c :: rest =>
    if c = '\n' then none
    else if hasPfx endMarker rest then some [c]
    else (scanPayload rest).map (fun p => c :: p)

/-- `re.search("\nSaved Result:(.+?):End Saved Result\n", s)` (default
flags, so `.` does not match `\n`): try each start position from the left;
at the first position where the whole pattern matches, return group 1. -/
def reSearch : List Char → Option (List Char)
  | [] => none
  | c :: rest =>
    if hasPfx startMarker (c :: rest) then
      match scanPayload ((c :: rest).drop startMarker.length) with
      | some p => some p
      | none => reSearch rest
    else reSearch rest

/-- Lines 126-129 of `LocalClient.run`: the result text is the captured
group of the first regex match, or `""` when there is no match. -/
def extractResult (output : String) : String :=
  match reSearch output.data with
  | some p => ⟨p⟩
  | none => ""

theorem scanPayload_cons (c : Char) (rest : List Char) :
    scanPayload (c :: rest) =
      if c = '\n' then none
      else if hasPfx endMarker rest then some [c]
      else (scanPayload rest).map (fun p => c :: p) := rfl

theorem reSearch_cons (c : Char) (rest : List Char) :
    reSearch (c :: rest) =
      if hasPfx startMarker (c :: rest) then
        match scanPayload ((c :: rest).drop startMarker.length) with
        | some p => some p
        | none => reSearch rest
      else reSearch rest := rfl

theorem hasPfx_iff (p s : List Char) : hasPfx p s = true ↔ ∃ t, s = p ++ t := by
  induction p generalizing s with
  | nil => simp [hasPfx]
  | cons a p ih =>
    cases s with
    | nil => simp [hasPfx]
    | cons b s =>
      simp only [hasPfx, Bool.and_eq_true, decide_eq_true_eq, ih, List.cons_append,
        List.cons.injEq]
      constructor
      · rintro ⟨rfl, t, rfl⟩; exact ⟨t, rfl, rfl⟩
      · rintro ⟨t, rfl, rfl⟩; exact ⟨rfl, t, rfl⟩

theorem hasPfx_append (p t : List Char) : hasPfx p (p ++ t) = true :=
  (hasPfx_iff p (p ++ t)).mpr ⟨t, rfl⟩

/-- Soundness of the payload scan: a successful scan decomposes its input
as `payload ++ endMarker ++ rest`, with a nonempty, newline-free payload. -/
theorem scanPayload_sound (s p : List Char) (h : scanPayload s = some p) :
    p ≠ [] ∧ '\n' ∉ p ∧ ∃ post, s = p ++ endMarker ++ post := by
  induction s generalizing p with
  | nil => simp [scanPayload] at h
  | cons c rest ih =>
    by_cases hc : c = '\n'
    · simp [scanPayload, hc] at h
    · by_cases he : hasPfx endMarker rest = true
      · simp only [scanPayload, if_neg hc, if_pos he, Option.some.injEq] at h
        obtain ⟨t, rfl⟩ := (hasPfx_iff _ _).mp he
        subst h
        refine ⟨by simp, ?_, t, by simp⟩
        simpa using fun hh => hc hh.symm
      · simp only [scanPayload, if_neg hc, if_neg he, Option.map_eq_some'] at h
        obtain ⟨q, hq, rfl⟩ := h
        obtain ⟨hne, hnl, post, rfl⟩ := ih q hq
        refine ⟨by simp, ?_, post, by simp⟩
        intro hmem
        rcases List.mem_cons.mp hmem with h1 | h2
        · exact hc h1.symm
        · exact hnl h2

/-- Soundness of the search: a successful `re.search` decomposes the
scanned text as `pre ++ "\nSaved Result:" ++ payload ++ ":End Saved
Result\n" ++ post`, with a nonempty, newline-free payload. -/
theorem reSearch_sound (s p : List Char) (h : reSearch s = some p) :
    p ≠ [] ∧ '\n' ∉ p ∧
      ∃ pre post, s = pre ++ startMarker ++ p ++ endMarker ++ post := by
  induction s generalizing p with
  | nil => simp [reSearch] at h
  | cons c rest ih =>
    by_cases hs : hasPfx startMarker (c :: rest) = true
    · obtain ⟨t, ht⟩ := (hasPfx_iff _ _).mp hs
      simp only [reSearch, if_pos hs] at h
      rcases hscan : scanPayload ((c :: rest).drop startMarker.length) with _ | q
      · rw [hscan] at h
        obtain ⟨hne, hnl, pre, post, hdec⟩ := ih p h
        exact ⟨hne, hnl, c :: pre, post, by simp [hdec]⟩
      · rw [hscan] at h
        have hq : q = p := by simpa using h
        subst hq
        have hdrop : (c :: rest).drop startMarker.length = t := by
          rw [ht]; simp
        obtain ⟨hne, hnl, post, hpost⟩ := scanPayload_sound _ _ hscan
        rw [hdrop] at hpost
        exact ⟨hne, hnl, [], post, by simp [ht, hpost]⟩
    · simp only [reSearch, if_neg hs] at h
      obtain ⟨hne, hnl, pre, post, hdec⟩ := ih p h
      exact ⟨hne, hnl, c :: pre, post, by simp [hdec]⟩

/-- Completeness of the payload scan: on input `xyz ++ endMarker ++ post`
with `xyz` nonempty and newline-free, and with no earlier (interior)
occurrence of the end marker, the lazy scan captures exactly `xyz`. -/
theorem scanPayload_complete (xyz post : List Char) (hne : xyz ≠ [])
    (hnl : '\n' ∉ xyz)
    (hmin : ∀ j, j < xyz.length → 0 < j →
      hasPfx endMarker (xyz.drop j ++ endMarker ++ post) = false) :
    scanPayload (xyz ++ endMarker ++ post) = some xyz := by
  induction xyz with
  | nil => exact absurd rfl hne
  | cons c xs ih =>
    have hc : ¬ c = '\n' := fun hh => hnl (hh ▸ List.mem_cons_self c xs)
    cases xs with
    | nil =>
      have hcons : [c] ++ endMarker ++ post = c :: (endMarker ++ post) := by simp
      rw [hcons, scanPayload_cons, if_neg hc, if_pos (hasPfx_append endMarker post)]
    | cons d ds =>
      have hint : hasPfx endMarker ((d :: ds) ++ endMarker ++ post) = false := by
        have := hmin 1 (by simp) Nat.one_pos
        simpa using this
      have ihh : scanPayload ((d :: ds) ++ endMarker ++ post) = some (d :: ds) := by
        refine ih (by simp) (fun hm => hnl (List.mem_cons_of_mem c hm)) ?_
        intro j hjl hj
        have := hmin (j + 1) (by simpa using Nat.succ_lt_succ hjl) (Nat.succ_pos j)
        simpa using this
      have hcons : (c :: d :: ds) ++ endMarker ++ post
          = c :: ((d :: ds) ++ endMarker ++ post) := by simp
      rw [hcons, scanPayload_cons, if_neg hc, if_neg (by rw [hint]; simp), ihh]
      rfl

/-- Completeness of the search: when the text decomposes as
`pre ++ startMarker ++ xyz ++ endMarker ++ post`, the payload is nonempty
and newline-free and contains no interior end marker, and no occurrence of
the start marker begins inside `pre`, then `re.search` captures exactly
`xyz`. -/
theorem reSearch_complete (pre xyz post : List Char) (hne : xyz ≠ [])
    (hnl : '\n' ∉ xyz)
    (hmin : ∀ j, j < xyz.length → 0 < j →
      hasPfx endMarker (xyz.drop j ++ endMarker ++ post) = false)
    (hpre : ∀ i, i < pre.length →
      hasPfx startMarker ((pre ++ startMarker ++ xyz ++ endMarker ++ post).drop i)
        = false) :
    reSearch (pre ++ startMarker ++ xyz ++ endMarker ++ post) = some xyz := by
  induction pre with
  | nil =>
    have hstart : hasPfx startMarker
        ([] ++ startMarker ++ xyz ++ endMarker ++ post) = true := by
      simpa [List.append_assoc] using
        hasPfx_append startMarker (xyz ++ endMarker ++ post)
    rcases hsm : startMarker with _ | ⟨a, as⟩
    · simp [startMarker] at hsm
    · have hcons : [] ++ startMarker ++ xyz ++ endMarker ++ post
          = a :: (as ++ xyz ++ endMarker ++ post) := by
        simp [hsm, List.append_assoc]
      have hgoal : [] ++ (a :: as) ++ xyz ++ endMarker ++ post
          = a :: (as ++ xyz ++ endMarker ++ post) := by
        simp [List.append_assoc]
      rw [hgoal]
      rw [hcons] at hstart
      rw [reSearch_cons, if_pos hstart]
      have hdrop : (a :: (as ++ xyz ++ endMarker ++ post)).drop startMarker.length
          = xyz ++ endMarker ++ post := by
        have : a :: (as ++ xyz ++ endMarker ++ post)
            = startMarker ++ (xyz ++ endMarker ++ post) := by
          simp [hsm, List.append_assoc]
        rw [this, List.drop_left]
      rw [hdrop, scanPayload_complete xyz post hne hnl hmin]
  | cons c cs ih =>
    have hnostart : hasPfx startMarker
        ((c :: cs) ++ startMarker ++ xyz ++ endMarker ++ post) = false := by
      simpa using hpre 0 (Nat.succ_pos cs.length)
    have hcons : (c :: cs) ++ startMarker ++ xyz ++ endMarker ++ post
        = c :: (cs ++ startMarker ++ xyz ++ endMarker ++ post) := by
      simp [List.append_assoc]
    rw [hcons]
    rw [hcons] at hnostart
    rw [reSearch_cons, if_neg (by rw [hnostart]; simp)]
    refine ih ?_
    intro i hi
    have := hpre (i + 1) (by simpa using Nat.succ_lt_succ hi)
    rw [hcons] at this
    simpa using this

/-! ## Data model of `LocalClient` -/

/-- `qiskit_serverless.exception.QiskitServerlessException`, raised by
`upload` when the entrypoint file is missing. -/
structure QiskitServerlessException where
  message : String
deriving Repr, DecidableEq

/-- The unhandled Python runtime errors the emulator can surface:
a dict subscript miss (`KeyError`), use of a local variable before
assignment (`NameError`/`UnboundLocalError`), and a failed
`subprocess.check_call` (`CalledProcessError`). -/
inductive PyError where
  | keyError (key : String)
  | nameError (name : String)
  | calledProcessError (dep : String)
deriving Repr, DecidableEq

/-- The fields of `qiskit_serverless.core.function.QiskitFunction` that
`LocalClient.upload` reads (title, provider, entrypoint, working_dir,
env_vars, dependencies). -/
structure QiskitFunction where
  title : String
  provider : Option String
  entrypoint : String
  working_dir : String
  env_vars : Option (List (String × String))
  dependencies : Option (List String)
deriving Repr, DecidableEq

/-- One entry of `self._patterns`, the dict built at lines 164-174.
In the Python code `dependencies` holds `json.dumps(program.dependencies
or [])` and `run` recovers the list with `json.loads`; since that
round-trip is the identity on the list, the record stores the list
itself.  `arguments` holds the literal `json.dumps({})`. -/
structure FunctionRecord where
  title : String
  provider : Option String
  entrypoint : String
  working_dir : String
  env_vars : Option (List (String × String))
  arguments : String
  dependencies : List String
deriving Repr, DecidableEq

/-- `qiskit_serverless.core.job.Job` as `LocalClient` uses it: only the
generated `job_id` matters (the `client` back-reference is this emulator). -/
structure Job where
  job_id : String
deriving Repr, DecidableEq

/-- One value of the `self._jobs` dict: the entry built at line 132. -/
structure JobEntry where
  status : String
  logs : String
  result : String
  job : Job
deriving Repr, DecidableEq

/-- The mutable state of one `LocalClient` instance: the `_jobs` dict
(modelled as an insertion-ordered association list with unique keys) and
the `_patterns` list. -/
structure LocalClientState where
  _jobs : List (String × JobEntry)
  _patterns : List FunctionRecord
deriving Repr, DecidableEq

/-- Python dict subscript `d[key]` (first matching key; keys are unique). -/
def dictLookup {α : Type} : List (String × α) → String → Option α
  | [], _ => none
  | (k, v) :: rest, key => if k = key then some v else dictLookup rest key

/-- Python dict assignment `d[key] = v`: overwrite in place if present,
else append. -/
def dictSet {α : Type} : List (String × α) → String → α → List (String × α)
  | [], key, v => [(key, v)]
  | (k, w) :: rest, key, v =>
    if k = key then (key, v) :: rest else (k, w) :: dictSet rest key v

/-! ## Operations -/

/-- The registry record appended by `upload` (lines 164-174). -/
def mkRecord (program : QiskitFunction) : FunctionRecord :=
  { title := program.title
    provider := program.provider
    entrypoint := program.entrypoint
    working_dir := program.working_dir
    env_vars := program.env_vars
    arguments := "{}"
    dependencies := program.dependencies.getD [] }

/-- `LocalClient.upload` (lines 157-175).  `fileExists wd ep` models
`os.path.exists(os.path.join(wd, ep))`, the only filesystem effect. -/
def upload (fileExists : String → String → Bool) (st : LocalClientState)
    (program : QiskitFunction) :
    Except QiskitServerlessException (LocalClientState × String) :=
  if fileExists program.working_dir program.entrypoint then
    .ok ({ st with _patterns := st._patterns ++ [mkRecord program] },
      program.title)
  else
    .error ⟨"Entrypoint file [" ++ program.entrypoint ++ "] does not exist in ["
      ++ program.working_dir ++ "] working directory."⟩

/-- The `QiskitFunction` handle built by `get_programs`: title, provider,
`raw_data` (the registry record) and a back-reference to this client. -/
structure FunctionHandle where
  title : String
  provider : Option String
  raw_data : FunctionRecord
deriving Repr, DecidableEq

/-- `LocalClient.get_programs` (lines 177-187): one handle per registered
record, in registration order. -/
def get_programs (st : LocalClientState) : List FunctionHandle :=
  st._patterns.map (fun program => ⟨program.title, program.provider, program⟩)

/-- `LocalClient.get_program` (lines 189-195): the dict comprehension
`{f.title: f for f in self.client.get_programs()}` followed by
`functions.get(title)`.  Later handles overwrite earlier ones on a
duplicate title, and `.get` returns `None` on a miss.
Modelled from the spec: `self.client` (an attribute installed by
`BaseClient`, which is outside `src/`) resolves to this same emulator
instance, so the comprehension ranges over `get_programs` of `st`. -/
def get_program (st : LocalClientState) (title : String) :
    Option FunctionHandle :=
  dictLookup ((get_programs st).foldl (fun d f => dictSet d f.title f) []) title

/-- `LocalClient.get_job` (lines 79-80): `self._jobs[job_id]["job"]`. -/
def get_job (st : LocalClientState) (job_id : String) : Except PyError Job :=
  match dictLookup st._jobs job_id with
  | some entry => .ok entry.job
  | none => .error (.keyError job_id)

/-- `LocalClient.status` (lines 136-137). -/
def status (st : LocalClientState) (job_id : String) : Except PyError String :=
  match dictLookup st._jobs job_id with
  | some entry => .ok entry.status
  | none => .error (.keyError job_id)

/-- `LocalClient.result` (lines 143-144). -/
def result (st : LocalClientState) (job_id : String) : Except PyError String :=
  match dictLookup st._jobs job_id with
  | some entry => .ok entry.result
  | none => .error (.keyError job_id)

/-- `LocalClient.logs` (lines 146-147). -/
def logs (st : LocalClientState) (job_id : String) : Except PyError String :=
  match dictLookup st._jobs job_id with
  | some entry => .ok entry.logs
  | none => .error (.keyError job_id)

/-! ## The `run` operation -/

/-- The externally visible effects of `run`, in order: one `install` per
`pip install` call (line 104) and one `spawn` for the `Popen` call
(lines 115-121), carrying the command line and the environment dict. -/
inductive Event where
  | install (dep : String)
  | spawn (cmd : List String) (env : List (String × String))
deriving Repr, DecidableEq

/-- The operating-system inputs one call to `run` consumes:
whether each `pip install <dep>` succeeds, the exit code returned by
`pipe.wait()`, the text captured from the subprocess stdout by
`pipe.communicate()`, the fresh `uuid4()`, `os.environ["PATH"]`, and
`json.dumps(·, cls=QiskitObjectsEncoder)` for the call arguments. -/
structure RunWorld where
  installOk : String → Bool
  exitCode : Int
  stdout : String
  newJobId : String
  path : String
  dumps : List (String × String) → String

/-- Lines 96-98: `for pattern in self._patterns: if pattern["title"] ==
title: saved_program = pattern`.  The loop variable is overwritten on
every match and the loop never breaks, so the fold keeps the last match;
`none` models `saved_program` left unassigned. -/
def lastMatch (patterns : List FunctionRecord) (title : String) :
    Option FunctionRecord :=
  patterns.foldl
    (fun acc pattern => if pattern.title = title then some pattern else acc)
    none

/-- Lines 102-106: `subprocess.check_call([... "pip", "install",
dependency])` for each dependency in order, stopping at (and including)
the first failing call.  Returns the trace of attempted installs and the
failing dependency, if any. -/
def installDeps (installOk : String → Bool) :
    List String → List String × Option String
  | [] => ([], none)
  | d :: ds =>
    if installOk d then
      let r := installDeps installOk ds
      (d :: r.1, r.2)
    else ([d], some d)

/-- Modelled from the spec: the fixed program-name marker key
`OT_PROGRAM_NAME` imported from `qiskit_serverless.core.constants`,
which is not under `src/`; the spec fixes only that it is a fixed key,
distinct from `PATH` and the job-arguments key. -/
def OT_PROGRAM_NAME : String := "OT_PROGRAM_NAME"

/-- Modelled from the spec: the fixed job-arguments key
`ENV_JOB_ARGUMENTS` imported from `qiskit_serverless.core.constants`,
which is not under `src/`. -/
def ENV_JOB_ARGUMENTS : String := "ENV_JOB_ARGUMENTS"

/-- Lookup in a merged Python dict literal `{**a, **b, ...}` represented
as the concatenation of its pieces: the value attached to the last
occurrence of the key wins. -/
def envLookup (l : List (String × String)) (k : String) : Option String :=
  ((l.filter (fun kv => kv.1 = k)).getLast?).map (fun kv => kv.2)

/-- The `Union[QiskitFunction, str]` first argument of `run`. -/
inductive ProgramRef where
  | fn (f : QiskitFunction)
  | str (s : String)

/-- Lines 91-94: `title = program.title` for a `QiskitFunction`,
`title = str(program)` otherwise. -/
def resolveTitle : ProgramRef → String
  | .fn f => f.title
  | .str s => s

/-- `LocalClient.run` (lines 85-134).  Returns the ordered effect trace,
the state after the call (unchanged when an exception escapes), and the
returned `Job` or the escaping error.  The ignored `config` parameter is
omitted. -/
def run (w : RunWorld) (st : LocalClientState) (program : ProgramRef)
    (arguments : Option (List (String × String))) :
    List Event × LocalClientState × Except PyError Job :=
  match lastMatch st._patterns (resolveTitle program) with
  | none => ([], st, .error (.nameError "saved_program"))
  | some saved_program =>
    match installDeps w.installOk saved_program.dependencies with
    | (tr, some dep) =>
      (tr.map Event.install, st, .error (.calledProcessError dep))
    | (tr, none) =>
      let env_vars := (saved_program.env_vars.getD []) ++
        [(OT_PROGRAM_NAME, saved_program.title), ("PATH", w.path),
         (ENV_JOB_ARGUMENTS, w.dumps (arguments.getD []))]
      let cmd := ["python",
        saved_program.working_dir ++ saved_program.entrypoint]
      let jobStatus := if w.exitCode = 0 then "SUCCEEDED" else "FAILED"
      let job : Job := ⟨w.newJobId⟩
      let entry : JobEntry :=
        ⟨jobStatus, w.stdout, extractResult w.stdout, job⟩
      (tr.map Event.install ++ [Event.spawn cmd env_vars],
       { st with _jobs := dictSet st._jobs job.job_id entry }, .ok job)

/-! ## Helper lemmas -/

theorem foldl_keepLast {α : Type} (cond : α → Prop) [DecidablePred cond]
    (ps : List α) (init : Option α) :
    ps.foldl (fun acc p => if cond p then some p else acc) init
      = Option.or ((ps.filter (fun p => decide (cond p))).getLast?) init := by
  induction ps generalizing init with
  | nil => simp
  | cons p ps ih =>
    simp only [List.foldl_cons, ih, List.filter_cons]
    by_cases hc : cond p
    · rw [if_pos hc, if_pos (decide_eq_true hc)]
      cases hfl : ps.filter (fun p => decide (cond p)) with
      | nil => simp [Option.or]
      | cons q l =>
        rw [List.getLast?_cons_cons]
        cases hx : (q :: l).getLast? with
        | none => simp [List.getLast?_eq_none_iff] at hx
        | some x => simp [hx, Option.or]
    · simp [hc]

theorem lastMatch_eq_filter_getLast (ps : List FunctionRecord)
    (title : String) :
    lastMatch ps title
      = (ps.filter (fun p => p.title = title)).getLast? := by
  unfold lastMatch
  rw [foldl_keepLast (fun p => p.title = title) ps none]
  cases (ps.filter (fun p => p.title = title)).getLast? <;> simp [Option.or]

theorem dictLookup_dictSet_self {α : Type} (m : List (String × α))
    (k : String) (v : α) : dictLookup (dictSet m k v) k = some v := by
  induction m with
  | nil => simp [dictSet, dictLookup]
  | cons kv rest ih =>
    by_cases hk : kv.1 = k
    · simp [dictSet, hk, dictLookup]
    · simp [dictSet, hk, dictLookup, ih]

theorem installDeps_all_ok (installOk : String → Bool) (ds : List String)
    (h : ∀ d ∈ ds, installOk d = true) :
    installDeps installOk ds = (ds, none) := by
  induction ds with
  | nil => rfl
  | cons d ds ih =>
    have hd : installOk d = true := h d (List.mem_cons_self d ds)
    simp [installDeps, hd, ih (fun x hx => h x (List.mem_cons_of_mem d hx))]

theorem installDeps_first_fail (installOk : String → Bool)
    (ds1 : List String) (d : String) (ds2 : List String)
    (h1 : ∀ x ∈ ds1, installOk x = true) (hd : installOk d = false) :
    installDeps installOk (ds1 ++ d :: ds2) = (ds1 ++ [d], some d) := by
  induction ds1 with
  | nil => simp [installDeps, hd]
  | cons x ds1 ih =>
    have hx : installOk x = true := h1 x (List.mem_cons_self x ds1)
    simp [installDeps, hx,
      ih (fun y hy => h1 y (List.mem_cons_of_mem x hy))]

/-- The environment dict built at lines 108-113, as passed to `Popen`. -/
def mergedEnv (saved_program : FunctionRecord) (path jsonArgs : String) :
    List (String × String) :=
  (saved_program.env_vars.getD []) ++
    [(OT_PROGRAM_NAME, saved_program.title), ("PATH", path),
     (ENV_JOB_ARGUMENTS, jsonArgs)]

theorem run_noMatch (w : RunWorld) (st : LocalClientState)
    (program : ProgramRef) (arguments : Option (List (String × String)))
    (h : lastMatch st._patterns (resolveTitle program) = none) :
    run w st program arguments
      = ([], st, .error (.nameError "saved_program")) := by
  simp only [run, h]

theorem run_installFail (w : RunWorld) (st : LocalClientState)
    (program : ProgramRef) (arguments : Option (List (String × String)))
    (r : FunctionRecord) (tr : List String) (d : String)
    (h : lastMatch st._patterns (resolveTitle program) = some r)
    (hi : installDeps w.installOk r.dependencies = (tr, some d)) :
    run w st program arguments
      = (tr.map Event.install, st, .error (.calledProcessError d)) := by
  simp only [run, h, hi]

theorem run_ok (w : RunWorld) (st : LocalClientState)
    (program : ProgramRef) (arguments : Option (List (String × String)))
    (r : FunctionRecord) (tr : List String)
    (h : lastMatch st._patterns (resolveTitle program) = some r)
    (hi : installDeps w.installOk r.dependencies = (tr, none)) :
    run w st program arguments
      = (tr.map Event.install ++
          [Event.spawn ["python", r.working_dir ++ r.entrypoint]
            (mergedEnv r w.path (w.dumps (arguments.getD [])))],
         { st with
            _jobs := dictSet st._jobs w.newJobId
              ⟨if w.exitCode = 0 then "SUCCEEDED" else "FAILED",
               w.stdout, extractResult w.stdout, ⟨w.newJobId⟩⟩ },
         .ok ⟨w.newJobId⟩) := by
  simp only [run, h, hi, mergedEnv]

theorem dictLookup_dictSet {α : Type} (m : List (String × α))
    (k : String) (v : α) (key : String) :
    dictLookup (dictSet m k v) key
      = if k = key then some v else dictLookup m key := by
  induction m with
  | nil =>
    by_cases hk : k = key <;> simp [dictSet, dictLookup, hk]
  | cons kv rest ih =>
    obtain ⟨k', w⟩ := kv
    by_cases h1 : k' = k
    · subst h1
      by_cases h2 : k' = key <;> simp [dictSet, dictLookup, h2]
    · by_cases h2 : k' = key
      · subst h2
        have : ¬ k = k' := fun hh => h1 hh.symm
        simp [dictSet, dictLookup, h1, this]
      · simp [dictSet, dictLookup, h1, h2, ih]

theorem getLast?_cons {α : Type} (a : α) (l : List α) :
    (a :: l).getLast? = Option.or l.getLast? (some a) := by
  cases l with
  | nil => simp [Option.or]
  | cons b l =>
    rw [List.getLast?_cons_cons]
    cases hx : (b :: l).getLast? with
    | none => simp [List.getLast?_eq_none_iff] at hx
    | some x => simp [Option.or]

theorem dictLookup_foldl_dictSet (fs : List FunctionHandle)
    (d : List (String × FunctionHandle)) (title : String) :
    dictLookup (fs.foldl (fun d f => dictSet d f.title f) d) title
      = Option.or ((fs.filter (fun f => f.title = title)).getLast?)
          (dictLookup d title) := by
  induction fs generalizing d with
  | nil => simp [Option.or]
  | cons f fs ih =>
    simp only [List.foldl_cons, ih, List.filter_cons, dictLookup_dictSet]
    by_cases hf : f.title = title
    · rw [if_pos hf, if_pos (decide_eq_true hf), getLast?_cons]
      cases (fs.filter (fun f => f.title = title)).getLast? <;>
        simp [Option.or]
    · rw [if_neg hf, if_neg (by simpa using hf)]

/-- `get_program` returns the handle of the *last* registered record with
the requested title (the dict comprehension overwrites on duplicates),
or `none`. -/
theorem get_program_eq (st : LocalClientState) (title : String) :
    get_program st title
      = ((get_programs st).filter (fun f => f.title = title)).getLast? := by
  unfold get_program
  rw [dictLookup_foldl_dictSet]
  cases ((get_programs st).filter (fun f => f.title = title)).getLast? <;>
    simp [dictLookup, Option.or]

/-- After a successful `run`, every query on the fresh job id reads back
the entry recorded at completion. -/
theorem run_ok_queries (w : RunWorld) (st : LocalClientState)
    (program : ProgramRef) (arguments : Option (List (String × String)))
    (r : FunctionRecord)
    (h : lastMatch st._patterns (resolveTitle program) = some r)
    (hins : ∀ d ∈ r.dependencies, w.installOk d = true) :
    ∃ ev st', run w st program arguments = (ev, st', .ok ⟨w.newJobId⟩)
      ∧ get_job st' w.newJobId = .ok ⟨w.newJobId⟩
      ∧ status st' w.newJobId
          = .ok (if w.exitCode = 0 then "SUCCEEDED" else "FAILED")
      ∧ result st' w.newJobId = .ok (extractResult w.stdout)
      ∧ logs st' w.newJobId = .ok w.stdout := by
  refine ⟨_, _,
    run_ok w st program arguments r r.dependencies h
      (installDeps_all_ok w.installOk r.dependencies hins),
    ?_, ?_, ?_, ?_⟩ <;>
  simp [get_job, status, result, logs, dictLookup_dictSet_self]

/-- A sample registry record used to instantiate hypotheses. -/
def sampleRecord : FunctionRecord :=
  { title := "echo-fn", provider := none, entrypoint := "main.py",
    working_dir := "/w/", env_vars := some [("A", "1")], arguments := "{}",
    dependencies := ["dep1", "dep2"] }

/-- A variant of `sampleRecord` sharing its title. -/
def sampleRecordB : FunctionRecord :=
  { sampleRecord with entrypoint := "other.py", dependencies := [] }

/-- A sample emulator state with one registered function and no jobs. -/
def sampleState : LocalClientState :=
  { _jobs := [], _patterns := [sampleRecord] }

/-- A sample emulator state with two functions sharing the same title. -/
def sampleState2 : LocalClientState :=
  { _jobs := [], _patterns := [sampleRecord, sampleRecordB] }

/-- A sample set of operating-system inputs for `run`. -/
def sampleWorld : RunWorld :=
  { installOk := fun _ => true, exitCode := 0,
    stdout := "\nSaved Result:42:End Saved Result\n", newJobId := "job-1",
    path := "/usr/bin", dumps := fun _ => "{}" }

/-- C1: `run` scans `_patterns` linearly with an overwritten (never
broken-out-of) loop variable, so the record used for execution is the
*last* registered one with a matching title; with zero matches it escapes
with the unhandled `NameError` on the unassigned `saved_program`, not a
clean typed error. -/
theorem claim_C1 (w : RunWorld) (st : LocalClientState)
    (program : ProgramRef) (arguments : Option (List (String × String))) :
    (lastMatch st._patterns (resolveTitle program)
        = (st._patterns.filter
            (fun p => p.title = resolveTitle program)).getLast?)
    ∧ (st._patterns.filter (fun p => p.title = resolveTitle program) = [] →
        run w st program arguments
          = ([], st, .error (.nameError "saved_program")))
    ∧ (∀ r : FunctionRecord,
        (st._patterns.filter
            (fun p => p.title = resolveTitle program)).getLast? = some r →
        (∀ d ∈ r.dependencies, w.installOk d = true) →
        (run w st program arguments).1
          = r.dependencies.map Event.install ++
            [Event.spawn ["python", r.working_dir ++ r.entrypoint]
              (mergedEnv r w.path (w.dumps (arguments.getD [])))]) := by
  refine ⟨lastMatch_eq_filter_getLast _ _, ?_, ?_⟩
  · intro hnil
    apply run_noMatch
    rw [lastMatch_eq_filter_getLast, hnil]
    rfl
  · intro r hr hins
    have h : lastMatch st._patterns (resolveTitle program) = some r := by
      rw [lastMatch_eq_filter_getLast]; exact hr
    rw [run_ok w st program arguments r r.dependencies h
      (installDeps_all_ok w.installOk r.dependencies hins)]

/-- C1 witness: with two functions registered under the title `echo-fn`,
the spawned entrypoint is the one of the *second* record. -/
theorem claim_C1_witness :
    ((sampleState2._patterns.filter
        (fun p => p.title = "echo-fn")).getLast? = some sampleRecordB)
    ∧ (∀ d ∈ sampleRecordB.dependencies, sampleWorld.installOk d = true)
    ∧ (run sampleWorld sampleState2 (.str "echo-fn") none).1
        = sampleRecordB.dependencies.map Event.install ++
          [Event.spawn
            ["python", sampleRecordB.working_dir ++ sampleRecordB.entrypoint]
            (mergedEnv sampleRecordB sampleWorld.path
              (sampleWorld.dumps []))] :=
  ⟨by decide, by decide,
    (claim_C1 sampleWorld sampleState2 (.str "echo-fn") none).2.2
      sampleRecordB (by decide) (by decide)⟩

/-- C2: the stored job status is `SUCCEEDED` exactly when the subprocess
exit code is `0`, and `FAILED` for every nonzero exit code. -/
theorem claim_C2 (w : RunWorld) (st : LocalClientState)
    (program : ProgramRef) (arguments : Option (List (String × String)))
    (r : FunctionRecord)
    (h : lastMatch st._patterns (resolveTitle program) = some r)
    (hins : ∀ d ∈ r.dependencies, w.installOk d = true) :
    ∃ ev st', run w st program arguments = (ev, st', .ok ⟨w.newJobId⟩)
      ∧ (status st' w.newJobId = .ok "SUCCEEDED" ↔ w.exitCode = 0)
      ∧ (status st' w.newJobId = .ok "FAILED" ↔ w.exitCode ≠ 0) := by
  obtain ⟨ev, st', hrun, _, hstat, _, _⟩ :=
    run_ok_queries w st program arguments r h hins
  have hne : ("SUCCEEDED" : String) ≠ "FAILED" := by decide
  refine ⟨ev, st', hrun, ?_, ?_⟩ <;> rw [hstat] <;>
    by_cases he : w.exitCode = 0 <;>
    simp [he, hne, Ne.symm hne]

/-- C2 witness: a zero exit code yields a stored status `SUCCEEDED`. -/
theorem claim_C2_witness :
    (∀ d ∈ sampleRecord.dependencies, sampleWorld.installOk d = true)
    ∧ ∃ ev st',
        run sampleWorld sampleState (.str "echo-fn") none
          = (ev, st', .ok ⟨"job-1"⟩)
        ∧ (status st' "job-1" = .ok "SUCCEEDED" ↔ sampleWorld.exitCode = 0)
        ∧ (status st' "job-1" = .ok "FAILED" ↔ sampleWorld.exitCode ≠ 0) :=
  ⟨by decide,
    claim_C2 sampleWorld sampleState (.str "echo-fn") none sampleRecord
      (by decide) (by decide)⟩

/-- C5: one `pip install` per dependency, in listed order, all before the
single spawn; a failing install propagates as the escaping
`CalledProcessError`, no spawn happens, and the state (in particular the
`_jobs` table) is unchanged. -/
theorem claim_C5 (w : RunWorld) (st : LocalClientState)
    (program : ProgramRef) (arguments : Option (List (String × String)))
    (r : FunctionRecord)
    (h : lastMatch st._patterns (resolveTitle program) = some r) :
    ((∀ d ∈ r.dependencies, w.installOk d = true) →
      (run w st program arguments).1
        = r.dependencies.map Event.install ++
          [Event.spawn ["python", r.working_dir ++ r.entrypoint]
            (mergedEnv r w.path (w.dumps (arguments.getD [])))])
    ∧ (∀ ds1 d ds2, r.dependencies = ds1 ++ d :: ds2 →
        (∀ x ∈ ds1, w.installOk x = true) → w.installOk d = false →
        run w st program arguments
          = ((ds1 ++ [d]).map Event.install, st,
             .error (.calledProcessError d))) := by
  constructor
  · intro hins
    rw [run_ok w st program arguments r r.dependencies h
      (installDeps_all_ok w.installOk r.dependencies hins)]
  · intro ds1 d ds2 hsplit h1 hd
    apply run_installFail w st program arguments r (ds1 ++ [d]) d h
    rw [hsplit]
    exact installDeps_first_fail w.installOk ds1 d ds2 h1 hd

/-- C5 witness: with `dep1` succeeding and `dep2` failing, exactly
`install dep1, install dep2` run, no spawn happens, the error escapes and
the state is unchanged. -/
theorem claim_C5_witness :
    (sampleRecord.dependencies = ["dep1"] ++ "dep2" :: [])
    ∧ run { sampleWorld with installOk := fun d => d = "dep1" }
        sampleState (.str "echo-fn") none
        = ((["dep1"] ++ ["dep2"]).map Event.install, sampleState,
           .error (.calledProcessError "dep2")) :=
  ⟨by decide,
    (claim_C5 { sampleWorld with installOk := fun d => d = "dep1" }
        sampleState (.str "echo-fn") none sampleRecord (by decide)).2
      ["dep1"] "dep2" [] (by decide) (by decide) (by decide)⟩

theorem or_getLast?_append {α : Type} (A B : List α) :
    (A ++ B).getLast? = Option.or B.getLast? A.getLast? := by
  induction A with
  | nil =>
    cases hb : B.getLast? <;> simp [Option.or, hb]
  | cons a A ih =>
    rw [List.cons_append, getLast?_cons, ih, getLast?_cons]
    cases B.getLast? <;> cases A.getLast? <;> simp [Option.or]

theorem envLookup_append (A B : List (String × String)) (k : String) :
    envLookup (A ++ B) k
      = Option.or (envLookup B k) (envLookup A k) := by
  unfold envLookup
  rw [List.filter_append, or_getLast?_append]
  cases (B.filter (fun kv => kv.1 = k)).getLast? <;>
    cases (A.filter (fun kv => kv.1 = k)).getLast? <;> simp [Option.or]

/-- Lookup in the merged environment dict: the three fixed pairs appended
last override the record's own env vars, with the job-arguments pair
taking highest precedence, then `PATH`, then the program-name marker. -/
theorem envLookup_mergedEnv (r : FunctionRecord) (path jsonArgs k : String) :
    envLookup (mergedEnv r path jsonArgs) k
      = if k = ENV_JOB_ARGUMENTS then some jsonArgs
        else if k = "PATH" then some path
        else if k = OT_PROGRAM_NAME then some r.title
        else envLookup (r.env_vars.getD []) k := by
  unfold mergedEnv
  rw [envLookup_append]
  by_cases h1 : k = ENV_JOB_ARGUMENTS
  · subst h1
    rw [if_pos rfl]
    have : envLookup [(OT_PROGRAM_NAME, r.title), ("PATH", path),
        (ENV_JOB_ARGUMENTS, jsonArgs)] ENV_JOB_ARGUMENTS = some jsonArgs := by
      unfold envLookup
      have e1 : (OT_PROGRAM_NAME = ENV_JOB_ARGUMENTS) = False := by
        simp [OT_PROGRAM_NAME, ENV_JOB_ARGUMENTS]
      have e2 : (("PATH" : String) = ENV_JOB_ARGUMENTS) = False := by
        simp [ENV_JOB_ARGUMENTS]
      simp [List.filter_cons, e1, e2]
    rw [this]
    rfl
  · by_cases h2 : k = "PATH"
    · subst h2
      rw [if_neg h1, if_pos rfl]
      have : envLookup [(OT_PROGRAM_NAME, r.title), ("PATH", path),
          (ENV_JOB_ARGUMENTS, jsonArgs)] "PATH" = some path := by
        unfold envLookup
        have e1 : (OT_PROGRAM_NAME = "PATH") = False := by
          simp [OT_PROGRAM_NAME]
        have e2 : (ENV_JOB_ARGUMENTS = "PATH") = False := by
          simp [ENV_JOB_ARGUMENTS]
        simp [List.filter_cons, e1, e2]
      rw [this]
      rfl
    · by_cases h3 : k = OT_PROGRAM_NAME
      · subst h3
        rw [if_neg h1, if_neg h2, if_pos rfl]
        have : envLookup [(OT_PROGRAM_NAME, r.title), ("PATH", path),
            (ENV_JOB_ARGUMENTS, jsonArgs)] OT_PROGRAM_NAME
              = some r.title := by
          unfold envLookup
          have e2 : (("PATH" : String) = OT_PROGRAM_NAME) = False := by
            simp [OT_PROGRAM_NAME]
          have e3 : (ENV_JOB_ARGUMENTS = OT_PROGRAM_NAME) = False := by
            simp [ENV_JOB_ARGUMENTS, OT_PROGRAM_NAME]
          simp [List.filter_cons, e2, e3]
        rw [this]
        rfl
      · rw [if_neg h1, if_neg h2, if_neg h3]
        have : envLookup [(OT_PROGRAM_NAME, r.title), ("PATH", path),
            (ENV_JOB_ARGUMENTS, jsonArgs)] k = none := by
          unfold envLookup
          have e1 : (OT_PROGRAM_NAME = k) = False := by
            simp; exact fun hh => h3 hh.symm
          have e2 : (("PATH" : String) = k) = False := by
            simp; exact fun hh => h2 hh.symm
          have e3 : (ENV_JOB_ARGUMENTS = k) = False := by
            simp; exact fun hh => h1 hh.symm
          simp [List.filter_cons, e1, e2, e3]
        rw [this]
        cases envLookup (r.env_vars.getD []) k <;> simp [Option.or]

/-- C7: the environment handed to the spawned subprocess is the merge, in
this order with later entries winning on key collision, of: the record's
env vars, the program-name marker pair, the inherited `PATH`, and the
JSON-serialized call arguments (empty mapping by default) under the
job-arguments key. -/
theorem claim_C7 (w : RunWorld) (st : LocalClientState)
    (program : ProgramRef) (arguments : Option (List (String × String)))
    (r : FunctionRecord)
    (h : lastMatch st._patterns (resolveTitle program) = some r)
    (hins : ∀ d ∈ r.dependencies, w.installOk d = true) :
    ∃ st',
      run w st program arguments
        = (r.dependencies.map Event.install ++
            [Event.spawn ["python", r.working_dir ++ r.entrypoint]
              (mergedEnv r w.path (w.dumps (arguments.getD [])))],
           st', .ok ⟨w.newJobId⟩)
      ∧ mergedEnv r w.path (w.dumps (arguments.getD []))
          = (r.env_vars.getD []) ++
            [(OT_PROGRAM_NAME, r.title), ("PATH", w.path),
             (ENV_JOB_ARGUMENTS, w.dumps (arguments.getD []))]
      ∧ (∀ k, envLookup (mergedEnv r w.path (w.dumps (arguments.getD []))) k
          = if k = ENV_JOB_ARGUMENTS then some (w.dumps (arguments.getD []))
            else if k = "PATH" then some w.path
            else if k = OT_PROGRAM_NAME then some r.title
            else envLookup (r.env_vars.getD []) k) := by
  refine ⟨_,
    run_ok w st program arguments r r.dependencies h
      (installDeps_all_ok w.installOk r.dependencies hins),
    rfl, fun k => envLookup_mergedEnv r w.path (w.dumps (arguments.getD [])) k⟩

/-- C7 witness: for the sample run, the record's own `A` survives the
merge while the three fixed keys take their fixed values. -/
theorem claim_C7_witness :
    ∃ st',
      run sampleWorld sampleState (.str "echo-fn") none
        = (sampleRecord.dependencies.map Event.install ++
            [Event.spawn
              ["python", sampleRecord.working_dir ++ sampleRecord.entrypoint]
              (mergedEnv sampleRecord sampleWorld.path
                (sampleWorld.dumps []))],
           st', .ok ⟨"job-1"⟩)
      ∧ mergedEnv sampleRecord sampleWorld.path (sampleWorld.dumps [])
          = (sampleRecord.env_vars.getD []) ++
            [(OT_PROGRAM_NAME, sampleRecord.title), ("PATH", sampleWorld.path),
             (ENV_JOB_ARGUMENTS, sampleWorld.dumps [])]
      ∧ (∀ k,
          envLookup
            (mergedEnv sampleRecord sampleWorld.path (sampleWorld.dumps [])) k
          = if k = ENV_JOB_ARGUMENTS then some (sampleWorld.dumps [])
            else if k = "PATH" then some sampleWorld.path
            else if k = OT_PROGRAM_NAME then some sampleRecord.title
            else envLookup (sampleRecord.env_vars.getD []) k) :=
  claim_C7 sampleWorld sampleState (.str "echo-fn") none sampleRecord
    (by decide) (by decide)

theorem mem_of_getLast?_eq {α : Type} {l : List α} {a : α}
    (h : l.getLast? = some a) : a ∈ l := by
  obtain ⟨hne, heq⟩ :=
    List.mem_getLast?_eq_getLast (l := l) (x := a) (by simp [h, Option.mem_def])
  rw [heq]
  exact List.getLast_mem hne

/-- C4: `get_program` builds a title-to-handle dict from the handles
returned by `get_programs` and returns the matching handle, or `none`
when no registered function has the title — it never fails on a merely
unknown title. -/
theorem claim_C4 (st : LocalClientState) (title : String) :
    ((get_program st title).isSome ↔ ∃ r ∈ st._patterns, r.title = title)
    ∧ (∀ f, get_program st title = some f →
        f.title = title ∧ f.raw_data ∈ st._patterns
          ∧ f = ⟨f.raw_data.title, f.raw_data.provider, f.raw_data⟩) := by
  constructor
  · constructor
    · intro hs
      obtain ⟨f, hf⟩ := Option.isSome_iff_exists.mp hs
      rw [get_program_eq] at hf
      have hmem := mem_of_getLast?_eq hf
      obtain ⟨hmemh, hcond⟩ := List.mem_filter.mp hmem
      obtain ⟨r, hr, hfr⟩ := List.mem_map.mp hmemh
      refine ⟨r, hr, ?_⟩
      have : f.title = title := by simpa using hcond
      rw [← this, ← hfr]
    · rintro ⟨r, hr, hrt⟩
      rw [get_program_eq, Option.isSome_iff_ne_none]
      intro hnone
      rw [List.getLast?_eq_none_iff] at hnone
      have hmem : (⟨r.title, r.provider, r⟩ : FunctionHandle)
          ∈ (get_programs st).filter (fun f => f.title = title) :=
        List.mem_filter.mpr
          ⟨List.mem_map.mpr ⟨r, hr, rfl⟩, by simpa using hrt⟩
      rw [hnone] at hmem
      exact absurd hmem (List.not_mem_nil _)
  · intro f hf
    rw [get_program_eq] at hf
    have hmem := mem_of_getLast?_eq hf
    obtain ⟨hmemh, hcond⟩ := List.mem_filter.mp hmem
    obtain ⟨r, hr, hfr⟩ := List.mem_map.mp hmemh
    refine ⟨by simpa using hcond, ?_, ?_⟩
    · rw [← hfr]; exact hr
    · rw [← hfr]

/-- C4 witness: the registered `echo-fn` is found, with its record. -/
theorem claim_C4_witness :
    (⟨"echo-fn", none, sampleRecord⟩ : FunctionHandle).title = "echo-fn"
    ∧ (⟨"echo-fn", none, sampleRecord⟩ : FunctionHandle).raw_data
        ∈ sampleState._patterns
    ∧ (⟨"echo-fn", none, sampleRecord⟩ : FunctionHandle)
        = ⟨sampleRecord.title, sampleRecord.provider, sampleRecord⟩ :=
  (claim_C4 sampleState "echo-fn").2 ⟨"echo-fn", none, sampleRecord⟩
    (by decide)

/-- The `QiskitFunction` whose uploaded record is `sampleRecord`. -/
def sampleFunction : QiskitFunction :=
  { title := "echo-fn", provider := none, entrypoint := "main.py",
    working_dir := "/w/", env_vars := some [("A", "1")],
    dependencies := some ["dep1", "dep2"] }

/-- C6: `upload` fails with the validation exception exactly when the
entrypoint file does not exist under the working directory; otherwise it
appends the record to `_patterns`, returns the title, and the function is
retrievable through `get_programs` and `get_program`. -/
theorem claim_C6 (fileExists : String → String → Bool)
    (st : LocalClientState) (program : QiskitFunction) :
    ((∃ e, upload fileExists st program = .error e)
        ↔ fileExists program.working_dir program.entrypoint = false)
    ∧ (fileExists program.working_dir program.entrypoint = true →
        upload fileExists st program
            = .ok ({ st with _patterns := st._patterns ++ [mkRecord program] },
                program.title)
          ∧ (⟨program.title, program.provider, mkRecord program⟩
                : FunctionHandle)
              ∈ get_programs
                  { st with _patterns := st._patterns ++ [mkRecord program] }
          ∧ get_program
                { st with _patterns := st._patterns ++ [mkRecord program] }
                program.title
              = some ⟨program.title, program.provider, mkRecord program⟩) := by
  constructor
  · constructor
    · rintro ⟨e, he⟩
      by_cases hf : fileExists program.working_dir program.entrypoint = true
      · unfold upload at he
        rw [if_pos hf] at he
        exact absurd he (by simp)
      · simpa using hf
    · intro hf
      refine ⟨⟨"Entrypoint file [" ++ program.entrypoint
        ++ "] does not exist in [" ++ program.working_dir
        ++ "] working directory."⟩, ?_⟩
      unfold upload
      rw [if_neg (by simp [hf])]
  · intro hf
    refine ⟨?_, ?_, ?_⟩
    · unfold upload
      rw [if_pos hf]
    · unfold get_programs
      simp only [List.map_append, List.mem_append]
      right
      simp [mkRecord]
    · rw [get_program_eq]
      unfold get_programs
      rw [List.map_append, List.filter_append]
      have hsingle : (([mkRecord program]).map
            (fun p => (⟨p.title, p.provider, p⟩ : FunctionHandle))).filter
              (fun f => f.title = program.title)
          = [⟨program.title, program.provider, mkRecord program⟩] := by
        simp [mkRecord]
      rw [hsingle, List.getLast?_concat]

/-- C6 witness: uploading `sampleFunction` onto the empty registry with
an always-true filesystem succeeds, returns the title, and the function
is retrievable. -/
theorem claim_C6_witness :
    upload (fun _ _ => true) { _jobs := [], _patterns := [] } sampleFunction
        = .ok ({ _jobs := [], _patterns := [mkRecord sampleFunction] },
            "echo-fn")
      ∧ (⟨"echo-fn", none, mkRecord sampleFunction⟩ : FunctionHandle)
          ∈ get_programs { _jobs := [], _patterns := [mkRecord sampleFunction] }
      ∧ get_program { _jobs := [], _patterns := [mkRecord sampleFunction] }
            "echo-fn"
          = some ⟨"echo-fn", none, mkRecord sampleFunction⟩ :=
  (claim_C6 (fun _ _ => true) { _jobs := [], _patterns := [] }
    sampleFunction).2 rfl

/-- C9: `get_job` fails with the unhandled `KeyError` exactly when no job
with the given id exists in the jobs table; after a successful run, every
query on the fresh id reads back the handle and the status, result and
logs recorded at completion. -/
theorem claim_C9 :
    (∀ (st : LocalClientState) (job_id : String),
        get_job st job_id = .error (.keyError job_id)
          ↔ dictLookup st._jobs job_id = none)
    ∧ (∀ (w : RunWorld) (st : LocalClientState) (program : ProgramRef)
        (arguments : Option (List (String × String))) (r : FunctionRecord),
        lastMatch st._patterns (resolveTitle program) = some r →
        (∀ d ∈ r.dependencies, w.installOk d = true) →
        ∃ ev st', run w st program arguments = (ev, st', .ok ⟨w.newJobId⟩)
          ∧ get_job st' w.newJobId = .ok ⟨w.newJobId⟩
          ∧ status st' w.newJobId
              = .ok (if w.exitCode = 0 then "SUCCEEDED" else "FAILED")
          ∧ result st' w.newJobId = .ok (extractResult w.stdout)
          ∧ logs st' w.newJobId = .ok w.stdout) := by
  constructor
  · intro st job_id
    unfold get_job
    cases h : dictLookup st._jobs job_id <;> simp
  · exact fun w st program arguments r h hins =>
      run_ok_queries w st program arguments r h hins

/-- C9 witness: the sample run's job is read back with its recorded
status, result and logs. -/
theorem claim_C9_witness :
    ∃ ev st',
      run sampleWorld sampleState (.str "echo-fn") none
        = (ev, st', .ok ⟨"job-1"⟩)
      ∧ get_job st' "job-1" = .ok ⟨"job-1"⟩
      ∧ status st' "job-1"
          = .ok (if sampleWorld.exitCode = 0 then "SUCCEEDED" else "FAILED")
      ∧ result st' "job-1" = .ok (extractResult sampleWorld.stdout)
      ∧ logs st' "job-1" = .ok sampleWorld.stdout :=
  claim_C9.2 sampleWorld sampleState (.str "echo-fn") none sampleRecord
    (by decide) (by decide)

/-- C3 counterexample: the stdout
`"ok\nSaved Result:p\nq:End Saved Result\ndone"` contains a span of the
form `\nSaved Result:XYZ:End Saved Result\n` with `XYZ = "p\nq"`, yet the
stored result is `""`, not `"p\nq"`: the `.` of the lazy group does not
match a newline (no `re.DOTALL`). -/
theorem claim_C3_counterexample :
    ("ok\nSaved Result:p\nq:End Saved Result\ndone" : String).data
        = "ok".data ++ startMarker ++ "p\nq".data ++ endMarker ++ "done".data
    ∧ extractResult "ok\nSaved Result:p\nq:End Saved Result\ndone" = ""
    ∧ ("" : String) ≠ "p\nq" := by
  refine ⟨by decide, ?_, by decide⟩
  rfl

/-- C3 (amended): when the captured stdout contains a span
`\nSaved Result:XYZ:End Saved Result\n` whose payload `XYZ` is nonempty,
newline-free and not cut short by an interior end marker, and the span is
the first place the start marker occurs, the stored result is exactly
`XYZ`; a stdout containing no span of that form at all stores `""`; and a
successful run stores `extractResult` of the captured stdout as the
job's result. -/
theorem claim_C3_amended :
    (∀ (output : String) (pre xyz post : List Char),
        output.data = pre ++ startMarker ++ xyz ++ endMarker ++ post →
        xyz ≠ [] → '\n' ∉ xyz →
        (∀ j, j < xyz.length → 0 < j →
          hasPfx endMarker (xyz.drop j ++ endMarker ++ post) = false) →
        (∀ i, i < pre.length →
          hasPfx startMarker (output.data.drop i) = false) →
        extractResult output = ⟨xyz⟩)
    ∧ (∀ output : String,
        (¬ ∃ pre xyz post : List Char,
            output.data = pre ++ startMarker ++ xyz ++ endMarker ++ post) →
        extractResult output = "")
    ∧ (∀ (w : RunWorld) (st : LocalClientState) (program : ProgramRef)
        (arguments : Option (List (String × String))) (r : FunctionRecord),
        lastMatch st._patterns (resolveTitle program) = some r →
        (∀ d ∈ r.dependencies, w.installOk d = true) →
        ∃ ev st', run w st program arguments = (ev, st', .ok ⟨w.newJobId⟩)
          ∧ result st' w.newJobId = .ok (extractResult w.stdout)) := by
  refine ⟨?_, ?_, ?_⟩
  · intro output pre xyz post hdec hne hnl hmin hpre
    rw [hdec] at hpre
    unfold extractResult
    rw [hdec, reSearch_complete pre xyz post hne hnl hmin hpre]
  · intro output hnodec
    cases hse : reSearch output.data with
    | none => unfold extractResult; rw [hse]
    | some p =>
      obtain ⟨_, _, pre, post, hdec⟩ := reSearch_sound _ _ hse
      exact absurd ⟨pre, p, post, hdec⟩ hnodec
  · intro w st program arguments r h hins
    obtain ⟨ev, st', hrun, _, _, hres, _⟩ :=
      run_ok_queries w st program arguments r h hins
    exact ⟨ev, st', hrun, hres⟩

/-- C3 (amended) witness: a well-formed single marker is extracted. -/
theorem claim_C3_amended_witness :
    extractResult "\nSaved Result:42:End Saved Result\n" = ⟨"42".data⟩ :=
  claim_C3_amended.1 "\nSaved Result:42:End Saved Result\n" [] "42".data []
    (by decide) (by decide) (by decide) (by decide) (by decide)

/-- C8 counterexample: the match does NOT span newlines: for stdout
`"\nSaved Result:a\nb:End Saved Result\n"`, whose payload between the
markers contains a newline, the search fails and the result is `""`. -/
theorem claim_C8_counterexample :
    ("\nSaved Result:a\nb:End Saved Result\n" : String).data
        = startMarker ++ "a\nb".data ++ endMarker
    ∧ '\n' ∈ "a\nb".data
    ∧ reSearch ("\nSaved Result:a\nb:End Saved Result\n").data = none
    ∧ extractResult "\nSaved Result:a\nb:End Saved Result\n" = "" := by
  refine ⟨by decide, by decide, by decide, ?_⟩
  rfl

/-- C8 (amended): the search matches non-greedily on only the first
occurrence of the marker pattern, but it does not span newlines: every
captured payload is newline-free (and nonempty); with two markers
present, the first one's payload is extracted. -/
theorem claim_C8_amended :
    (∀ s p : List Char, reSearch s = some p → '\n' ∉ p ∧ p ≠ [])
    ∧ reSearch
        ("\nSaved Result:A:End Saved Result\n\nSaved Result:B:End Saved Result\n").data
        = some "A".data := by
  constructor
  · intro s p h
    obtain ⟨hne, hnl, _⟩ := reSearch_sound s p h
    exact ⟨hnl, hne⟩
  · decide

/-- C8 (amended) witness: the captured payload of a concrete successful
search is newline-free and nonempty. -/
theorem claim_C8_amended_witness :
    '\n' ∉ "A".data ∧ "A".data ≠ [] :=
  claim_C8_amended.1 ("\nSaved Result:A:End Saved Result\n").data "A".data
    (by decide)

/-- C10: a result is extracted only when the marker text is immediately
preceded and followed by a literal newline: every successful search
decomposes the stdout with the flanking newlines in place, and marker
text at the very start (no preceding newline) or very end (no trailing
newline) of stdout stores the empty result. -/
theorem claim_C10 :
    (∀ (output : String) (p : List Char),
        reSearch output.data = some p →
        ∃ pre post, output.data
          = pre ++ ('\n' :: "Saved Result:".data) ++ p
            ++ (":End Saved Result".data ++ ['\n']) ++ post)
    ∧ extractResult "Saved Result:42:End Saved Result\n" = ""
    ∧ extractResult "\nSaved Result:42:End Saved Result" = "" := by
  refine ⟨?_, rfl, rfl⟩
  intro output p h
  obtain ⟨_, _, pre, post, hdec⟩ := reSearch_sound _ _ h
  refine ⟨pre, post, ?_⟩
  have h1 : startMarker = '\n' :: "Saved Result:".data := by decide
  have h2 : endMarker = ":End Saved Result".data ++ ['\n'] := by decide
  rw [← h1, ← h2]
  exact hdec

/-- C10 witness: a concrete successful search decomposes with flanking
newlines. -/
theorem claim_C10_witness :
    ∃ pre post, ("\nSaved Result:42:End Saved Result\n" : String).data
      = pre ++ ('\n' :: "Saved Result:".data) ++ "42".data
        ++ (":End Saved Result".data ++ ['\n']) ++ post :=
  claim_C10.1 "\nSaved Result:42:End Saved Result\n" "42".data (by decide)
